import Mathlib

/-!
Verification development for the domino search engine (crate `wasm-ai`).

The Rust sources are shallowly embedded below.  Machine integers are
modelled as `Nat` (for bit masks and 32-bit hash values, with explicit
`% 2^32` where wrap-around matters) and `Int` (for scores, board ends
and the various `i8`/`i32` fields).  The `f64` arithmetic of the static
evaluator and of the move-ordering scores is modelled over `ℚ`; every
constant of the evaluator is an exact decimal, and the properties proved
about it are sign/negation symmetries that are preserved by the
sign-symmetric IEEE-754 rounding, so the rational model is the faithful
algebraic skeleton of the floating-point code.  The process-wide mutable
state of the engine (`static mut` in Rust) is threaded explicitly: the
board position is a `Pos` record, the persistent tables (transposition
table, killers, history, counters) an `Env` record.  Recursion of the
search is fuelled; fuel exhaustion returns a junk value on a branch that
the real program never reaches for well-formed inputs.
-/

namespace Dominos

/-- Population count of a 32-bit word, as `u32::count_ones` computes it
for the `i32` bit masks of the engine (`lookup.rs`, `popcount`). -/
def popcount (x : Nat) : Nat :=
  (List.range 32).countP (fun i => x.testBit i)

/-- Ascending list of the set bit positions of a 32-bit word.  The Rust
loops `while h != 0 { let bit = h & h.wrapping_neg(); ... h ^= bit }`
enumerate exactly these indices in this order. -/
def bitIndices (x : Nat) : List Nat :=
  (List.range 32).filter (fun i => x.testBit i)

/-- Tile list of the double-six set in index order
`(0,0),(0,1),...,(0,6),(1,1),...,(6,6)` (`lookup.rs` table builders). -/
def tilePairs : List (Nat × Nat) :=
  (List.range 7).flatMap (fun i => ((List.range 7).filter (fun j => i ≤ j)).map (fun j => (i, j)))

/-- Low pip value of tile `t` (`TILE_LOW`). -/
def tileLow (t : Nat) : Nat := (tilePairs.getD t (0, 0)).1

/-- High pip value of tile `t` (`TILE_HIGH`). -/
def tileHigh (t : Nat) : Nat := (tilePairs.getD t (0, 0)).2

/-- Pip sum of tile `t` (`TILE_PIPS`). -/
def tilePips (t : Nat) : Nat := tileLow t + tileHigh t

/-- Whether tile `t` is a double (`TILE_IS_DOUBLE`). -/
def tileIsDouble (t : Nat) : Bool := tileLow t == tileHigh t

/-- Suit mask: bit `t` is set iff tile `t` contains pip value `v`
(`SUIT_MASK` in `lookup.rs`). -/
def suitMask (v : Nat) : Nat :=
  (List.range 28).foldl
    (fun m t => if tileLow t = v ∨ tileHigh t = v then m ||| (1 <<< t) else m) 0

/-- Suit mask indexed by a (possibly signed) end value, as the Rust code
casts the `i8` end to `usize` before indexing; all reachable ends are in
`0..=6` here. -/
def suitMaskI (v : Int) : Nat := suitMask v.toNat

/-- Mask of the seven double tiles (`DOUBLE_MASK`). -/
def doubleMask : Nat :=
  (List.range 28).foldl
    (fun m t => if tileLow t = tileHigh t then m ||| (1 <<< t) else m) 0

/-- Bit of the (0,0) tile (`TILE_00_BIT`). -/
def tile00Bit : Nat := 1

/-- Zero-suit tiles other than (0,0) (`ZERO_SUIT_NO_00`). -/
def zeroSuitNo00 : Nat := suitMask 0 &&& (suitMask 0 ^^^ tile00Bit)

/-- New left end after placing tile `t` against left end `v`
(`NEW_END_LEFT`): `v = 7` means empty board and yields the low pip; the
high side is matched first, then the low side; `-1` marks an illegal
combination. -/
def newEndLeft (t : Nat) (v : Int) : Int :=
  if v = 7 then tileLow t
  else if (tileHigh t : Int) = v then tileLow t
  else if (tileLow t : Int) = v then tileHigh t
  else -1

/-- New right end after placing tile `t` against right end `v`
(`NEW_END_RIGHT`): the low side is matched first. -/
def newEndRight (t : Nat) (v : Int) : Int :=
  if v = 7 then tileHigh t
  else if (tileLow t : Int) = v then tileHigh t
  else if (tileHigh t : Int) = v then tileLow t
  else -1

/-- Moves are `(tile index, end)` pairs with end `0` = left, `1` = right
(the `MOVE_TILE_BUF`/`MOVE_END_BUF` entries of `movegen.rs`). -/
abbrev Move := Nat × Nat

/-- Legal-move generation (`generate_moves` in `movegen.rs`).  An empty
board (`left = 7`) admits every tile in hand on the left end; otherwise
left-end matches are emitted first, then right-end matches — all of them
when the ends differ, and only those not already emitted for the left
end when the ends coincide. -/
def generateMoves (hand : Nat) (left right : Int) : List Move :=
  if left = 7 then
    (bitIndices hand).map (fun t => (t, 0))
  else
    let leftMask := suitMaskI left &&& hand
    let rightMask := suitMaskI right &&& hand
    ((bitIndices leftMask).map (fun t => (t, 0))) ++
      (if left ≠ right then
        (bitIndices rightMask).map (fun t => (t, 1))
      else
        (bitIndices (rightMask ^^^ (rightMask &&& leftMask))).map (fun t => (t, 1)))

/-- Legal-move count without materialising the moves (`count_moves_bb`):
a tile matching both (distinct) ends is counted once. -/
def countMovesBB (hand : Nat) (left right : Int) : Nat :=
  if left = 7 then popcount hand
  else
    let leftMask := suitMaskI left &&& hand
    let rightMask := suitMaskI right &&& hand
    if left = right then popcount leftMask else popcount (leftMask ||| rightMask)

example : tileLow 6 = 0 ∧ tileHigh 6 = 6 ∧ tilePips 27 = 12 := by decide
example : popcount (suitMask 0) = 7 ∧ popcount doubleMask = 7 := by decide
example : (generateMoves ((1 <<< 0) ||| (1 <<< 1) ||| (1 <<< 7)) 0 1).length = 4 := by decide
example : countMovesBB ((1 <<< 0) ||| (1 <<< 7)) 0 0 = 1 := by decide

/-! Counting lemmas for move generation. -/

lemma countP_or_add_countP_and {α : Type} (l : List α) (p q : α → Bool) :
    l.countP (fun a => p a || q a) + l.countP (fun a => p a && q a)
      = l.countP p + l.countP q := by
  induction l with
  | nil => simp
  | cons x xs ih =>
    cases hp : p x <;> cases hq : q x <;>
      simp [List.countP_cons, hp, hq] <;> omega

lemma popcount_lor_add_popcount_land (a b : Nat) :
    popcount (a ||| b) + popcount (a &&& b) = popcount a + popcount b := by
  simp only [popcount, Nat.testBit_or, Nat.testBit_and]
  exact countP_or_add_countP_and _ _ _

lemma land_lor_land (s t h : Nat) :
    (s &&& h) ||| (t &&& h) = (s ||| t) &&& h := by
  apply Nat.eq_of_testBit_eq
  intro i
  simp only [Nat.testBit_or, Nat.testBit_and]
  cases s.testBit i <;> cases t.testBit i <;> cases h.testBit i <;> rfl

lemma land_land_land (s t h : Nat) :
    (s &&& h) &&& (t &&& h) = s &&& t &&& h := by
  apply Nat.eq_of_testBit_eq
  intro i
  simp only [Nat.testBit_and]
  cases s.testBit i <;> cases t.testBit i <;> cases h.testBit i <;> rfl

lemma length_bitIndices (m : Nat) : (bitIndices m).length = popcount m := by
  simp [bitIndices, popcount, List.countP_eq_length_filter]

lemma popcount_pos_of_ne_zero (m : Nat) (hm : m < 2 ^ 32) (h : m ≠ 0) :
    0 < popcount m := by
  by_contra hc
  apply h
  apply Nat.eq_of_testBit_eq
  intro i
  rw [Nat.zero_testBit]
  by_cases hi : i < 32
  · have h0 : popcount m = 0 := Nat.eq_zero_of_not_pos hc
    have := List.countP_eq_zero.mp h0 i (List.mem_range.mpr hi)
    simpa using this
  · exact Nat.testBit_eq_false_of_lt (lt_of_lt_of_le hm (Nat.pow_le_pow_right (by omega) (by omega)))

lemma suitMask_lt (v : Nat) (hv : v ≤ 6) : suitMask v < 2 ^ 28 := by
  interval_cases v <;> decide

lemma generateMoves_length_formula (hand : Nat) (l r : Int) (hl7 : l ≠ 7) :
    (generateMoves hand l r).length =
      if l = r then popcount (suitMaskI l &&& hand)
      else popcount ((suitMaskI l ||| suitMaskI r) &&& hand)
        + popcount (suitMaskI l &&& suitMaskI r &&& hand) := by
  by_cases hlr : l = r
  · subst hlr
    simp [generateMoves, hl7, length_bitIndices, Nat.and_self, Nat.xor_self, popcount]
  · simp only [generateMoves, hl7, hlr, if_false, ite_false, if_neg, ne_eq,
      not_false_eq_true, if_true, ite_true, List.length_append, List.length_map,
      length_bitIndices]
    rw [← land_lor_land, ← land_land_land, popcount_lor_add_popcount_land]

/-- C6: for every hand mask and non-empty board ends, `generate_moves`
emits `popcount(SUIT_MASK[left] & hand)` moves when the two ends
coincide, and
`popcount((SUIT_MASK[left] | SUIT_MASK[right]) & hand) +
 popcount(SUIT_MASK[left] & SUIT_MASK[right] & hand)`
moves when they differ: a tile matching both (distinct) ends is emitted
once per end. -/
theorem generateMoves_emit_count (hand : Nat) (l r : Int)
    (hl0 : 0 ≤ l) (hl6 : l ≤ 6) (hr0 : 0 ≤ r) (hr6 : r ≤ 6) :
    (generateMoves hand l r).length =
      if l = r then popcount (suitMaskI l &&& hand)
      else popcount ((suitMaskI l ||| suitMaskI r) &&& hand)
        + popcount (suitMaskI l &&& suitMaskI r &&& hand) :=
  generateMoves_length_formula hand l r (by omega)

/-- C6 witness: the hand containing tiles (0,0), (0,1), (1,1) against
ends 0 and 1 yields 4 emitted moves, matching the formula (tile (0,1)
matches both ends and is emitted twice). -/
theorem generateMoves_emit_count_witness :
    ((0 : Int) ≤ 0 ∧ (0 : Int) ≤ 6 ∧ (0 : Int) ≤ 1 ∧ (1 : Int) ≤ 6) ∧
    (generateMoves ((1 <<< 0) ||| (1 <<< 1) ||| (1 <<< 7)) 0 1).length =
      (if (0 : Int) = 1 then
        popcount (suitMaskI 0 &&& ((1 <<< 0) ||| (1 <<< 1) ||| (1 <<< 7)))
      else popcount ((suitMaskI 0 ||| suitMaskI 1) &&& ((1 <<< 0) ||| (1 <<< 1) ||| (1 <<< 7)))
        + popcount (suitMaskI 0 &&& suitMaskI 1 &&& ((1 <<< 0) ||| (1 <<< 1) ||| (1 <<< 7)))) :=
  ⟨⟨by decide, by decide, by decide, by decide⟩,
    generateMoves_emit_count _ 0 1 (by decide) (by decide) (by decide) (by decide)⟩

/-- C10: for non-empty distinct ends `count_moves_bb` counts a tile
matching both ends once (`popcount` of the union mask), strictly fewer
than the moves `generate_moves` emits whenever the hand holds such a
tile; with equal ends or an empty board the two counts agree. -/
theorem countMoves_vs_generateMoves (hand : Nat) (l r : Int)
    (hl0 : 0 ≤ l) (hl6 : l ≤ 6) (hr0 : 0 ≤ r) (hr6 : r ≤ 6) :
    (l ≠ r →
        countMovesBB hand l r = popcount ((suitMaskI l ||| suitMaskI r) &&& hand) ∧
          (suitMaskI l &&& suitMaskI r &&& hand ≠ 0 →
            countMovesBB hand l r < (generateMoves hand l r).length)) ∧
      (l = r → countMovesBB hand l r = (generateMoves hand l r).length) ∧
      countMovesBB hand 7 7 = (generateMoves hand 7 7).length := by
  have hl7 : l ≠ 7 := by omega
  refine ⟨fun hlr => ?_, fun hlr => ?_, ?_⟩
  · have hcm : countMovesBB hand l r = popcount ((suitMaskI l ||| suitMaskI r) &&& hand) := by
      simp only [countMovesBB, hl7, hlr, if_false, ite_false, if_neg, not_false_eq_true]
      rw [land_lor_land]
    refine ⟨hcm, fun hne => ?_⟩
    rw [hcm, generateMoves_length_formula hand l r hl7, if_neg hlr]
    have hlt : suitMaskI l &&& suitMaskI r &&& hand < 2 ^ 32 := by
      have h1 : suitMaskI l &&& suitMaskI r &&& hand ≤ suitMaskI l :=
        le_trans Nat.and_le_left Nat.and_le_left
      have h2 : suitMaskI l < 2 ^ 28 := suitMask_lt l.toNat (by omega)
      calc suitMaskI l &&& suitMaskI r &&& hand ≤ suitMaskI l := h1
        _ < 2 ^ 28 := h2
        _ < 2 ^ 32 := by norm_num
    have := popcount_pos_of_ne_zero _ hlt hne
    omega
  · subst hlr
    rw [generateMoves_length_formula hand l l hl7, if_pos rfl]
    simp [countMovesBB, hl7]
  · simp [countMovesBB, generateMoves, length_bitIndices]

/-- C10 witness: with ends 0 and 1 and a hand holding the both-end tile
(0,1), `count_moves_bb` returns 3 while `generate_moves` emits 4; with
equal ends or an empty board the counts coincide. -/
theorem countMoves_vs_generateMoves_witness :
    ((0 : Int) ≤ 0 ∧ (0 : Int) ≤ 6 ∧ (0 : Int) ≤ 1 ∧ (1 : Int) ≤ 6) ∧
    ((0 : Int) ≠ 1 →
        countMovesBB ((1 <<< 0) ||| (1 <<< 1) ||| (1 <<< 7)) 0 1 =
            popcount ((suitMaskI 0 ||| suitMaskI 1) &&& ((1 <<< 0) ||| (1 <<< 1) ||| (1 <<< 7))) ∧
          (suitMaskI 0 &&& suitMaskI 1 &&& ((1 <<< 0) ||| (1 <<< 1) ||| (1 <<< 7)) ≠ 0 →
            countMovesBB ((1 <<< 0) ||| (1 <<< 1) ||| (1 <<< 7)) 0 1 <
              (generateMoves ((1 <<< 0) ||| (1 <<< 1) ||| (1 <<< 7)) 0 1).length)) ∧
      ((0 : Int) = 1 →
        countMovesBB ((1 <<< 0) ||| (1 <<< 1) ||| (1 <<< 7)) 0 1 =
          (generateMoves ((1 <<< 0) ||| (1 <<< 1) ||| (1 <<< 7)) 0 1).length) ∧
      countMovesBB ((1 <<< 0) ||| (1 <<< 1) ||| (1 <<< 7)) 7 7 =
        (generateMoves ((1 <<< 0) ||| (1 <<< 1) ||| (1 <<< 7)) 7 7).length :=
  ⟨⟨by decide, by decide, by decide, by decide⟩,
    countMoves_vs_generateMoves _ 0 1 (by decide) (by decide) (by decide) (by decide)⟩

/-! Terminal scoring (`scoring.rs`): pip counting with the ghost-13
rule, domino-win score, block score with puppeteer aggressor
detection. -/

/-- Pip count of a hand (`total_pips_bb`): the (0,0) tile counts 13
pips when the hand holds it and no other zero-suit tile remains in
either hand. -/
def totalPipsBB (hand bothHands : Nat) : Int :=
  let g : Bool := (hand &&& tile00Bit != 0) && (bothHands &&& zeroSuitNo00 == 0)
  ((bitIndices hand).map
    (fun i => if i = 0 ∧ g = true then (13 : Int) else (tilePips i : Int))).sum

/-- Domino-win score (`score_domino_bb`): the loser's pip count, signed
for the AI. -/
def scoreDominoBB (winnerIsAI : Bool) (loserHand : Nat) : Int :=
  let pips := totalPipsBB loserHand loserHand
  if winnerIsAI then pips else -pips

/-- Aggressor detection for block scoring (`detect_aggressor_bb`).
Returns `1` for the AI, `0` for the human (or whatever `p1_who`/`p2_who`
hold).  The puppeteer rule: when P2 was forced into a single legal move
and every orientation of that move left both sides without a reply, P2
is the aggressor instead of the last placer P1. -/
def detectAggressorBB (p1Who p1L p1R p1Tile p2Who p2L p2R : Int)
    (lastPlacerHand otherHand : Nat) : Int :=
  if p2Who = -1 ∨ p1Tile = -1 then p1Who
  else
    let forcedHand := lastPlacerHand ||| (1 <<< p1Tile.toNat)
    let legalMask :=
      if p2L = 7 then forcedHand
      else if p2L = p2R then suitMaskI p2L &&& forcedHand
      else (suitMaskI p2L ||| suitMaskI p2R) &&& forcedHand
    if popcount legalMask ≠ 1 then p1Who
    else
      let theTileIdx := (bitIndices legalMask).headD 0
      let lo := tileLow theTileIdx
      let hi := tileHigh theTileIdx
      let canL : Bool := if p2L = 7 then true else ((lo : Int) == p2L || (hi : Int) == p2L)
      let canR : Bool :=
        if p2L = 7 then false
        else if p2L = p2R ∧ canL = true then false
        else ((lo : Int) == p2R || (hi : Int) == p2R)
      let forcedHandAfter := lastPlacerHand
      let newL := newEndLeft theTileIdx (if p2L = 7 then 7 else p2L)
      let newR := if p2L = 7 then newEndRight theTileIdx 7 else p2R
      if canL = true ∧ (0 < countMovesBB otherHand newL newR ∨
          0 < countMovesBB forcedHandAfter newL newR) then p1Who
      else
        let newR2 := newEndRight theTileIdx p2R
        let newL2 := p2L
        if canR = true ∧ (0 < countMovesBB otherHand newL2 newR2 ∨
            0 < countMovesBB forcedHandAfter newL2 newR2) then p1Who
        else p2Who

/-- Block score (`score_block_bb`): aggressor detection followed by the
pip comparison with the double-or-sum payoff. -/
def scoreBlockBB (aiHand humanHand : Nat)
    (p1Who p1L p1R p1Tile p2Who p2L p2R : Int) : Int :=
  let lastPlacerHand := if p1Who = 1 then aiHand else humanHand
  let otherHand := if p1Who = 1 then humanHand else aiHand
  let aggressor := detectAggressorBB p1Who p1L p1R p1Tile p2Who p2L p2R lastPlacerHand otherHand
  let bothHands := aiHand ||| humanHand
  let aiPips := totalPipsBB aiHand bothHands
  let humanPips := totalPipsBB humanHand bothHands
  let aggrPips := if aggressor = 1 then aiPips else humanPips
  let oppPips := if aggressor = 1 then humanPips else aiPips
  if aggrPips ≤ oppPips then
    let pts := oppPips * 2
    if aggressor = 1 then pts else -pts
  else
    let pts := aiPips + humanPips
    if aggressor = 1 then -pts else pts

example : totalPipsBB (1 <<< 0) (1 <<< 0) = 13 := by decide
example : totalPipsBB ((1 <<< 0) ||| (1 <<< 1)) ((1 <<< 0) ||| (1 <<< 1)) = 1 := by decide
example : scoreDominoBB true (1 <<< 27) = 12 ∧ scoreDominoBB false (1 <<< 27) = -12 := by decide

/-- C4: `score_block_bb` pays `2 * opp_pips` towards the aggressor's
opponent-facing sign when the aggressor (as detected by the puppeteer
rule) holds at most as many pips (ghost-13 applied over the union of
the hands) as the opponent — positive when the aggressor is the AI,
negative when the aggressor is the human — and otherwise pays the total
`ai_pips + human_pips` against the aggressor: negative when the
aggressor is the AI, positive otherwise. -/
theorem scoreBlockBB_sign_magnitude (aiHand humanHand : Nat)
    (p1Who p1L p1R p1Tile p2Who p2L p2R : Int) :
    scoreBlockBB aiHand humanHand p1Who p1L p1R p1Tile p2Who p2L p2R =
      if detectAggressorBB p1Who p1L p1R p1Tile p2Who p2L p2R
            (if p1Who = 1 then aiHand else humanHand)
            (if p1Who = 1 then humanHand else aiHand) = 1 then
        (if totalPipsBB aiHand (aiHand ||| humanHand)
              ≤ totalPipsBB humanHand (aiHand ||| humanHand) then
          2 * totalPipsBB humanHand (aiHand ||| humanHand)
        else
          -(totalPipsBB aiHand (aiHand ||| humanHand)
              + totalPipsBB humanHand (aiHand ||| humanHand)))
      else
        (if totalPipsBB humanHand (aiHand ||| humanHand)
              ≤ totalPipsBB aiHand (aiHand ||| humanHand) then
          -(2 * totalPipsBB aiHand (aiHand ||| humanHand))
        else
          totalPipsBB aiHand (aiHand ||| humanHand)
            + totalPipsBB humanHand (aiHand ||| humanHand)) := by
  simp only [scoreBlockBB]
  split_ifs <;> ring

/-! Transposition table (`tt.rs`): a fixed array of `2^22` single-slot
entries keyed by `hash & (size-1)`, with generation-aged replacement.
The struct-of-arrays storage is modelled as one function from slot
index to entry; the `i8`/`i16` narrowing casts of `tt_store` are
explicit wraps. -/

def ttSize : Nat := 1 <<< 22

def ttIndex (hash : Nat) : Nat := hash &&& (ttSize - 1)

def ttFlagExact : Nat := 1
def ttFlagLower : Nat := 2
def ttFlagUpper : Nat := 3

structure TTEntry where
  hash : Nat
  depth : Int
  flag : Nat
  value : Int
  bestIdx : Int
  bestEnd : Int
  gen : Nat
deriving DecidableEq

/-- Transposition-table storage: slot index to entry. -/
abbrev TTState := Nat → TTEntry

/-- Zero-initialised entry, as the Rust statics start out. -/
def ttEmptyEntry : TTEntry := ⟨0, 0, 0, 0, 0, 0, 0⟩

structure TtHit where
  bestIdx : Int
  bestEnd : Int
  score : Option Int
deriving DecidableEq

/-- Two's-complement wrap to `i8` width, for `depth as i8`. -/
def wrapI8 (x : Int) : Int := (x + 128) % 256 - 128

/-- Two's-complement wrap to `i16` width, for `value as i16`. -/
def wrapI16 (x : Int) : Int := (x + 32768) % 65536 - 32768

/-- Probe (`tt_probe` in `tt.rs`): empty slot or hash mismatch give no
hit; otherwise the stored move is always returned, and the stored value
only when the stored depth suffices and the bound flag allows it. -/
def ttProbe (tt : TTState) (hash : Nat) (depth alpha beta : Int) : Option TtHit :=
  let e := tt (ttIndex hash)
  if e.flag = 0 then none
  else if e.hash ≠ hash then none
  else
    some
      { bestIdx := e.bestIdx, bestEnd := e.bestEnd,
        score :=
          if depth ≤ e.depth then
            if e.flag = ttFlagExact then some e.value
            else if e.flag = ttFlagLower ∧ beta ≤ e.value then some e.value
            else if e.flag = ttFlagUpper ∧ e.value ≤ alpha then some e.value
            else none
          else none }

/-- Store (`tt_store`): replace when the slot is empty, from an older
generation, or the incoming depth is at least the stored depth. -/
def ttStore (tt : TTState) (generation : Nat) (hash : Nat) (depth : Int)
    (flag : Nat) (value bestIdx bestEnd : Int) : TTState :=
  let idx := ttIndex hash
  let e := tt idx
  if e.flag = 0 ∨ e.gen ≠ generation ∨ e.depth ≤ depth then
    fun j =>
      if j = idx then
        { hash := hash, depth := wrapI8 depth, flag := flag, value := wrapI16 value,
          bestIdx := bestIdx, bestEnd := bestEnd, gen := generation }
      else tt j
  else tt

/-- C5: `tt_probe` returns no hit exactly when the indexed slot is
empty or its stored hash differs; a hit always carries the stored
`(best_idx, best_end)` hint and carries the stored value as a usable
score precisely when the stored depth is at least the requested depth
and the flag is `EXACT`, or `LOWER` with value at least `beta`, or
`UPPER` with value at most `alpha`. -/
theorem ttProbe_contract (tt : TTState) (hash : Nat) (depth alpha beta : Int) :
    ttProbe tt hash depth alpha beta =
      (if (tt (ttIndex hash)).flag = 0 ∨ (tt (ttIndex hash)).hash ≠ hash then none
       else
        some
          { bestIdx := (tt (ttIndex hash)).bestIdx,
            bestEnd := (tt (ttIndex hash)).bestEnd,
            score :=
              if depth ≤ (tt (ttIndex hash)).depth ∧
                  ((tt (ttIndex hash)).flag = ttFlagExact ∨
                    ((tt (ttIndex hash)).flag = ttFlagLower ∧ beta ≤ (tt (ttIndex hash)).value) ∨
                    ((tt (ttIndex hash)).flag = ttFlagUpper ∧ (tt (ttIndex hash)).value ≤ alpha))
                then some (tt (ttIndex hash)).value
              else none }) := by
  simp only [ttProbe]
  split_ifs <;> simp_all <;> first | tauto | omega

/-! Zobrist hashing (`zobrist.rs`): xorshift32 PRNG seeded with
`0x12345678`, tables drawn in the order 28 tiles × 2 hands, 8 left
ends, 8 right ends, side, 2 pass-counter words.  Hash values are 32-bit
words modelled as `Nat` below `2^32`. -/

/-- One xorshift32 draw: `s ^= s<<13; s ^= s>>>17; s ^= s<<5` on `u32`. -/
def xorshift32Step (s : Nat) : Nat :=
  let s1 := (s ^^^ (s <<< 13)) % 4294967296
  let s2 := s1 ^^^ (s1 >>> 17)
  (s2 ^^^ (s2 <<< 5)) % 4294967296

/-- State of the PRNG after `k` draws from the seed. -/
def zdraw (k : Nat) : Nat := xorshift32Step^[k] 0x12345678

/-- Tile term `Z_tile[idx][hand]` (draws 1..56). -/
def zTileHash (idx hand : Nat) : Nat := zdraw (2 * idx + hand + 1)

/-- Left-end term `Z_left[v]` (draws 57..64). -/
def zLeftHash (v : Nat) : Nat := zdraw (57 + v)

/-- Right-end term `Z_right[v]` (draws 65..72). -/
def zRightHash (v : Nat) : Nat := zdraw (65 + v)

/-- Side term `Z_side` (draw 73). -/
def zSideHash : Nat := zdraw 73

/-- Pass-counter terms `Z_conspass[i]` (draws 74, 75). -/
def zConspassHash (i : Nat) : Nat := zdraw (74 + i)

/-- Left-end term indexed by a signed end value (`as usize` cast). -/
def zLeftI (v : Int) : Nat := zLeftHash v.toNat

/-- Right-end term indexed by a signed end value. -/
def zRightI (v : Int) : Nat := zRightHash v.toNat

/-- XOR of a list of words. -/
def xorList (l : List Nat) : Nat := l.foldl (fun a b => a ^^^ b) 0

/-- XOR of `f i` over the set bits of `m`, as the Rust
`while hand != 0` loops accumulate tile terms. -/
def xorBitTerms (m : Nat) (f : Nat → Nat) : Nat := xorList ((bitIndices m).map f)

/-- From-scratch hash (`compute_root_hash`): tile terms for both hands,
both end terms, the side term if it is the human's move, and the
pass-counter term if the counter is positive. -/
def computeRootHash (aiHand humanHand : Nat) (left right : Int)
    (isAI : Bool) (consPass : Int) : Nat :=
  xorBitTerms aiHand (fun i => zTileHash i 0) ^^^
    xorBitTerms humanHand (fun i => zTileHash i 1) ^^^
    zLeftI left ^^^ zRightI right ^^^
    (if isAI then 0 else zSideHash) ^^^
    (if 0 < consPass then zConspassHash 1 else 0)

/-! The current position of the search: the `static mut` fields
`G_AI_HAND .. G_CONS_PASS`, `G_PLY`, `G_MATCH_DIFF` and the puppeteer
history `G_P1_* / G_P2_*` of `search.rs`, threaded as one record. -/

@[ext] structure Pos where
  aiHand : Nat
  humanHand : Nat
  left : Int
  right : Int
  hash : Nat
  consPass : Int
  ply : Nat
  matchDiff : Int
  p1Who : Int
  p1L : Int
  p1R : Int
  p1Tile : Int
  p2Who : Int
  p2L : Int
  p2R : Int
deriving DecidableEq

/-- New board ends after placing tile `t` on end `e` (`compute_new_ends`
in `search.rs`): an empty board takes the tile's own pips, otherwise the
transition table of the chosen end applies. -/
def computeNewEnds (t : Nat) (e : Nat) (left right : Int) : Int × Int :=
  if left = 7 then ((tileLow t : Int), (tileHigh t : Int))
  else if e = 0 then (newEndLeft t left, right)
  else (left, newEndRight t right)

/-- The make half of a search move for the side `isAI` (the mutation
block at the head of each `minimax_bb` loop iteration): flip the hand
bit, install the new ends, XOR the affected hash terms onto the saved
hash, clear the pass counter, shift the puppeteer history, bump the
ply.  `saved` holds the values saved on entry to the node; at every
application in the search the current position equals `saved`. -/
def makeMovePos (isAI : Bool) (t : Nat) (e : Nat) (saved pos : Pos) : Pos :=
  let bit := 1 <<< t
  let ends := computeNewEnds t e saved.left saved.right
  { pos with
    aiHand := if isAI then pos.aiHand ^^^ bit else pos.aiHand,
    humanHand := if isAI then pos.humanHand else pos.humanHand ^^^ bit,
    left := ends.1, right := ends.2,
    hash := saved.hash ^^^ zTileHash t (if isAI then 0 else 1)
      ^^^ zLeftI saved.left ^^^ zLeftI ends.1
      ^^^ zRightI saved.right ^^^ zRightI ends.2
      ^^^ zSideHash
      ^^^ (if 0 < saved.consPass then zConspassHash 1 else 0),
    consPass := 0,
    p1Who := if isAI then 1 else 0, p1L := ends.1, p1R := ends.2, p1Tile := (t : Int),
    p2Who := saved.p1Who, p2L := saved.p1L, p2R := saved.p1R,
    ply := saved.ply + 1 }

/-- The pass transition of `minimax_bb` (zero legal moves, fewer than
two consecutive passes): toggle the side term, retoggle the
pass-counter term around the increment. -/
def passStepPos (pos : Pos) : Pos :=
  { pos with
    hash := pos.hash ^^^ zSideHash
      ^^^ (if 0 < pos.consPass then zConspassHash 1 else 0)
      ^^^ (if 0 < pos.consPass + 1 then zConspassHash 1 else 0),
    consPass := pos.consPass + 1 }

/-- The unmake half of a search move: flip the hand bit back and restore
every saved field (the restore block after the child call in
`minimax_bb`). -/
def unmakeMovePos (isAI : Bool) (t : Nat) (saved posAfter : Pos) : Pos :=
  let bit := 1 <<< t
  { posAfter with
    aiHand := if isAI then posAfter.aiHand ^^^ bit else posAfter.aiHand,
    humanHand := if isAI then posAfter.humanHand else posAfter.humanHand ^^^ bit,
    left := saved.left, right := saved.right,
    hash := saved.hash, consPass := saved.consPass,
    p1Who := saved.p1Who, p1L := saved.p1L, p1R := saved.p1R, p1Tile := saved.p1Tile,
    p2Who := saved.p2Who, p2L := saved.p2L, p2R := saved.p2R,
    ply := saved.ply }

/-! XOR algebra used by the incremental-hash proof. -/

lemma natXor_cancel_left (a b : Nat) : a ^^^ (a ^^^ b) = b := by
  rw [← Nat.xor_assoc, Nat.xor_self, Nat.zero_xor]

lemma natXor_left_comm (a b c : Nat) : a ^^^ (b ^^^ c) = b ^^^ (a ^^^ c) := by
  rw [← Nat.xor_assoc, Nat.xor_comm a b, Nat.xor_assoc]

lemma xorList_foldl_shift (l : List Nat) : ∀ a : Nat, l.foldl (fun x y => x ^^^ y) a = a ^^^ xorList l := by
  induction l with
  | nil => intro a; simp [xorList]
  | cons x xs ih =>
    intro a
    simp only [List.foldl_cons, xorList, ih (a ^^^ x), ih (0 ^^^ x)]
    rw [Nat.zero_xor, Nat.xor_assoc]

lemma xorList_cons (x : Nat) (l : List Nat) : xorList (x :: l) = x ^^^ xorList l := by
  simp only [xorList, List.foldl_cons]
  rw [xorList_foldl_shift, Nat.zero_xor]
  rfl

lemma xorList_filter_toggle (f : Nat → Nat) (m t : Nat) :
    ∀ l : List Nat, l.Nodup → t ∈ l →
      xorList ((l.filter (fun i => (m ^^^ (1 <<< t)).testBit i)).map f)
        = xorList ((l.filter (fun i => m.testBit i)).map f) ^^^ f t := by
  intro l
  induction l with
  | nil => intro _ ht; cases ht
  | cons x xs ih =>
    intro hnd hmem
    have hnd' : xs.Nodup := (List.nodup_cons.mp hnd).2
    have hx : x ∉ xs := (List.nodup_cons.mp hnd).1
    have hbit : ∀ i : Nat, i ≠ t → (m ^^^ (1 <<< t)).testBit i = m.testBit i := by
      intro i hi
      rw [Nat.one_shiftLeft, Nat.testBit_xor, Nat.testBit_two_pow]
      simp [Ne.symm hi]
    rcases List.mem_cons.mp hmem with hxt | htxs
    · subst hxt
      have hagree : ∀ i ∈ xs, ((m ^^^ (1 <<< t)).testBit i) = (m.testBit i) := by
        intro i hi
        exact hbit i (fun he => hx (he ▸ hi))
      have hft : (m ^^^ (1 <<< t)).testBit t = !(m.testBit t) := by
        rw [Nat.one_shiftLeft, Nat.testBit_xor, Nat.testBit_two_pow]
        simp
      rw [List.filter_cons, List.filter_cons, List.filter_congr hagree, hft]
      cases hmt : m.testBit t
      · rw [if_pos (by decide : (!false) = true), if_neg (by decide : ¬ false = true)]
        simp only [List.map_cons, xorList_cons]
        rw [Nat.xor_comm]
      · rw [if_neg (by decide : ¬ (!true) = true), if_pos (by decide : true = true)]
        simp only [List.map_cons, xorList_cons]
        rw [Nat.xor_comm (f t) _, Nat.xor_assoc, Nat.xor_self, Nat.xor_zero]
    · have hxt : x ≠ t := fun he => hx (he ▸ htxs)
      rw [List.filter_cons, List.filter_cons, hbit x hxt]
      cases hmx : m.testBit x
      · simp only [ite_false, Bool.false_eq_true, if_false]
        exact ih hnd' htxs
      · simp only [ite_true, List.map_cons, xorList_cons]
        rw [ih hnd' htxs, Nat.xor_assoc]

lemma xorBitTerms_flip (m t : Nat) (f : Nat → Nat) (ht : t < 32) :
    xorBitTerms (m ^^^ (1 <<< t)) f = xorBitTerms m f ^^^ f t := by
  unfold xorBitTerms bitIndices
  exact xorList_filter_toggle f m t (List.range 32) (List.nodup_range 32)
    (List.mem_range.mpr ht)

/-! Claim C2: incremental-hash equivalence.  The make and pass steps
above are exactly the transitions `minimax_bb` performs (and, with a
zero pass counter, also the root-loop make of `choose_move`, whose hash
update omits the then-vanishing pass-counter term); the invariant ties
the running hash to `compute_root_hash` of the current position. -/

/-- Arguments of `choose_move` (`search.rs`). -/
structure ChooseArgs where
  aiHand : Nat
  humanHand : Nat
  left : Int
  right : Int
  consPass : Int
  matchDiff : Int
  p1Who : Int
  p1L : Int
  p1R : Int
  p1Tile : Int
  p2Who : Int
  p2L : Int
  p2R : Int

/-- Position state seeded by `choose_move` before the search: note the
hash is computed with the pass counter forced to `0` (the literal `0`
argument at the `compute_root_hash` call in `choose_move`), while the
`consPass` field receives the actual argument. -/
def rootPos (a : ChooseArgs) : Pos :=
  { aiHand := a.aiHand, humanHand := a.humanHand, left := a.left, right := a.right,
    hash := computeRootHash a.aiHand a.humanHand a.left a.right true 0,
    consPass := a.consPass, ply := 0, matchDiff := a.matchDiff,
    p1Who := a.p1Who, p1L := a.p1L, p1R := a.p1R, p1Tile := a.p1Tile,
    p2Who := a.p2Who, p2L := a.p2L, p2R := a.p2R }

/-- The running hash of a position agrees with the from-scratch hash of
its fields, for the given side to move. -/
def hashInv (isAI : Bool) (p : Pos) : Prop :=
  p.hash = computeRootHash p.aiHand p.humanHand p.left p.right isAI p.consPass

/-- One step the search performs on the position: a placement by the
side to move, or a pass. -/
inductive SearchStep where
  | place (t : Nat) (e : Nat)
  | pass
deriving DecidableEq

/-- Apply a step for the side tracked alongside the position. -/
def applySearchStep : Pos × Bool → SearchStep → Pos × Bool
  | (p, side), SearchStep.place t e => (makeMovePos side t e p p, !side)
  | (p, side), SearchStep.pass => (passStepPos p, !side)

def runSearchSteps (steps : List SearchStep) (s : Pos × Bool) : Pos × Bool :=
  steps.foldl applySearchStep s

/-- Well-formed steps place genuine tile indices (the move generator
only emits indices below 32). -/
def stepsWF (steps : List SearchStep) : Prop :=
  ∀ t e, SearchStep.place t e ∈ steps → t < 32

lemma hashInv_make (side : Bool) (t e : Nat) (ht : t < 32) (p : Pos)
    (hp : hashInv side p) : hashInv (!side) (makeMovePos side t e p p) := by
  cases side
  · unfold hashInv computeRootHash at hp ⊢
    simp only [makeMovePos] at hp ⊢
    simp at hp ⊢
    rw [hp, xorBitTerms_flip _ t _ ht]
    simp [Nat.xor_assoc, Nat.xor_comm, natXor_left_comm, natXor_cancel_left,
      Nat.xor_self, Nat.xor_zero, Nat.zero_xor]
  · unfold hashInv computeRootHash at hp ⊢
    simp only [makeMovePos] at hp ⊢
    simp at hp ⊢
    rw [hp, xorBitTerms_flip _ t _ ht]
    simp [Nat.xor_assoc, Nat.xor_comm, natXor_left_comm, natXor_cancel_left,
      Nat.xor_self, Nat.xor_zero, Nat.zero_xor]

lemma hashInv_pass (side : Bool) (p : Pos) (hp : hashInv side p) :
    hashInv (!side) (passStepPos p) := by
  cases side
  · unfold hashInv computeRootHash at hp ⊢
    simp only [passStepPos] at hp ⊢
    simp at hp ⊢
    rw [hp]
    simp [Nat.xor_assoc, Nat.xor_comm, natXor_left_comm, natXor_cancel_left,
      Nat.xor_self, Nat.xor_zero, Nat.zero_xor]
  · unfold hashInv computeRootHash at hp ⊢
    simp only [passStepPos] at hp ⊢
    simp at hp ⊢
    rw [hp]
    simp [Nat.xor_assoc, Nat.xor_comm, natXor_left_comm, natXor_cancel_left,
      Nat.xor_self, Nat.xor_zero, Nat.zero_xor]

lemma hashInv_run (steps : List SearchStep) :
    ∀ s : Pos × Bool, stepsWF steps → hashInv s.2 s.1 →
      hashInv (runSearchSteps steps s).2 (runSearchSteps steps s).1 := by
  induction steps with
  | nil => intro s _ h; exact h
  | cons st rest ih =>
    intro s hwf h
    obtain ⟨p, side⟩ := s
    have hwf' : stepsWF rest := fun t e hm => hwf t e (List.mem_cons_of_mem _ hm)
    cases st with
    | place t e =>
      have ht : t < 32 := hwf t e (List.mem_cons_self _ _)
      have h1 : hashInv (!side) (makeMovePos side t e p p) := hashInv_make side t e ht p h
      simpa [runSearchSteps, applySearchStep] using
        ih (makeMovePos side t e p p, !side) hwf' h1
    | pass =>
      have h1 : hashInv (!side) (passStepPos p) := hashInv_pass side p h
      simpa [runSearchSteps, applySearchStep] using
        ih (passStepPos p, !side) hwf' h1

/-- C2 (amended): starting from any root call of `choose_move` whose
`cons_pass` argument is `0` (as every call from the shell is), after
any sequence of the search's make and pass steps the running
incremental hash equals `compute_root_hash` of the resulting position
for the side then to move.  For roots with positive `cons_pass` the
invariant already fails before any step, because `choose_move` seeds
the hash with the pass counter forced to `0` — see the
counterexample. -/
theorem zobrist_incremental_equivalence (a : ChooseArgs) (h0 : a.consPass = 0)
    (steps : List SearchStep) (hwf : stepsWF steps) :
    hashInv (runSearchSteps steps (rootPos a, true)).2
      (runSearchSteps steps (rootPos a, true)).1 := by
  apply hashInv_run steps _ hwf
  unfold hashInv rootPos
  dsimp only
  rw [h0]

/-- Root call with `cons_pass = 1`: AI holds (0,1), human holds (6,6),
ends 0 and 3, no puppeteer history. -/
def argsConsPassOne : ChooseArgs :=
  { aiHand := 1 <<< 1, humanHand := 1 <<< 27, left := 0, right := 3,
    consPass := 1, matchDiff := 0,
    p1Who := -1, p1L := 0, p1R := 0, p1Tile := -1,
    p2Who := -1, p2L := 0, p2R := 0 }

set_option maxRecDepth 100000 in
/-- C2 counterexample: for the root call with `cons_pass = 1` and the
empty step sequence, the running hash seeded by `choose_move` differs
from `compute_root_hash` of the root position — the claim quantified
over roots with positive `cons_pass` is false. -/
theorem zobrist_incremental_equivalence_cex :
    ¬ hashInv (runSearchSteps [] (rootPos argsConsPassOne, true)).2
        (runSearchSteps [] (rootPos argsConsPassOne, true)).1 := by
  unfold hashInv
  decide

/-- C2 witness: a concrete `cons_pass = 0` root with one placement and
one pass. -/
theorem zobrist_incremental_equivalence_witness :
    ((⟨1 <<< 1, 1 <<< 27, 0, 3, 0, 0, -1, 0, 0, -1, -1, 0, 0⟩ : ChooseArgs).consPass = 0 ∧
        stepsWF [SearchStep.place 1 0, SearchStep.pass]) ∧
      hashInv
        (runSearchSteps [SearchStep.place 1 0, SearchStep.pass]
          (rootPos ⟨1 <<< 1, 1 <<< 27, 0, 3, 0, 0, -1, 0, 0, -1, -1, 0, 0⟩, true)).2
        (runSearchSteps [SearchStep.place 1 0, SearchStep.pass]
          (rootPos ⟨1 <<< 1, 1 <<< 27, 0, 3, 0, 0, -1, 0, 0, -1, -1, 0, 0⟩, true)).1 := by
  refine ⟨⟨rfl, ?_⟩, ?_⟩
  · intro t e hm
    rcases List.mem_cons.mp hm with h1 | h1
    · cases h1; omega
    · rcases List.mem_cons.mp h1 with h2 | h2
      · cases h2
      · cases h2
  · apply zobrist_incremental_equivalence _ rfl
    intro t e hm
    rcases List.mem_cons.mp hm with h1 | h1
    · cases h1; omega
    · rcases List.mem_cons.mp h1 with h2 | h2
      · cases h2
      · cases h2

/-! Static evaluator (`eval.rs`), modelled over `ℚ`: seven components
with phase- and match-score-dependent weights. -/

def wPip : ℚ := 2
def wMobility : ℚ := 4
def wTile : ℚ := 5
def wSuit : ℚ := 3
def wLockin : ℚ := 8
def wLockinBoth : ℚ := 15
def wGhost : ℚ := 10
def wDouble : ℚ := 3 / 2

/-- Pip counting of the evaluator (`total_pips_eval`), a verbatim copy
of `total_pips_bb` kept inline in `eval.rs`. -/
def totalPipsEval (hand bothHands : Nat) : Int := totalPipsBB hand bothHands

/-- Suit-control and lock-in component of the evaluator (term 4). -/
def suitScoreQ (ai human : Nat) (left right : Int) : ℚ :=
  if left ≠ 7 then
    if left = right then
      ((popcount (suitMaskI left &&& ai) : ℚ) - (popcount (suitMaskI left &&& human) : ℚ))
          * wSuit * 2
        + (if popcount (suitMaskI left &&& human) = 0 then wLockin * 2 + wLockinBoth else 0)
    else
      ((popcount (suitMaskI left &&& ai) : ℚ) + (popcount (suitMaskI right &&& ai) : ℚ)
            - (popcount (suitMaskI left &&& human) : ℚ)
            - (popcount (suitMaskI right &&& human) : ℚ)) * wSuit
        + (if popcount (suitMaskI left &&& human) = 0 then wLockin else 0)
        + (if popcount (suitMaskI right &&& human) = 0 then wLockin else 0)
        + (if popcount (suitMaskI left &&& human) = 0 ∧ popcount (suitMaskI right &&& human) = 0
            then wLockinBoth else 0)
  else 0

/-- Ghost-13 component (term 5): only when no zero-suit tile other than
(0,0) survives in either hand. -/
def ghostQ (ai human : Nat) : ℚ :=
  if (ai ||| human) &&& zeroSuitNo00 = 0 then
    (if human &&& tile00Bit ≠ 0 then wGhost else 0)
      - (if ai &&& tile00Bit ≠ 0 then wGhost else 0)
  else 0

/-- Weighted pip total of the doubles of one hand, for term 6. -/
def doubleSumQ (x : Nat) : ℚ :=
  ((bitIndices (x &&& doubleMask)).map (fun i => ((tilePips i : ℚ) + 2) * wDouble)).sum

/-- Double penalty/bonus component (term 6). -/
def doublePenQ (ai human : Nat) : ℚ := doubleSumQ human - doubleSumQ ai

/-- Phase weights (pip, mobility, suit, doubles) from the number of
remaining tiles (term 7). -/
def phaseBase (total : Nat) : ℚ × ℚ × ℚ × ℚ :=
  if 20 ≤ total then (7 / 10, 3 / 2, 13 / 10, 13 / 10)
  else if total < 8 then (3 / 2, 3 / 5, 3 / 2, 1)
  else (1, 1, 1, 1)

/-- Match-score multiplier applied to the pip weight (term 8). -/
def matchMulPip (d : Int) : ℚ := if 50 ≤ d then 7 / 5 else if d ≤ -50 then 7 / 10 else 1

/-- Match-score multiplier applied to the mobility weight. -/
def matchMulMob (d : Int) : ℚ := if 50 ≤ d then 1 else if d ≤ -50 then 13 / 10 else 1

/-- Match-score multiplier applied to the suit weight. -/
def matchMulSuit (d : Int) : ℚ := if 50 ≤ d then 3 / 5 else if d ≤ -50 then 3 / 2 else 1

def phasePip (total : Nat) (d : Int) : ℚ := (phaseBase total).1 * matchMulPip d
def phaseMob (total : Nat) (d : Int) : ℚ := (phaseBase total).2.1 * matchMulMob d
def phaseSuit (total : Nat) (d : Int) : ℚ := (phaseBase total).2.2.1 * matchMulSuit d
def phaseDbl (total : Nat) : ℚ := (phaseBase total).2.2.2

/-- Static evaluation (`evaluate_bb`), from the AI's perspective. -/
def evaluateBB (ai human : Nat) (left right : Int) (matchDiff : Int) : ℚ :=
  let both := ai ||| human
  let pipScore := (((totalPipsEval human both - totalPipsEval ai both : Int) : ℚ)) * wPip
  let mobScore :=
    ((((countMovesBB ai left right : Int) - (countMovesBB human left right : Int)) : Int) : ℚ)
      * wMobility
  let tileScore := ((((popcount human : Int) - (popcount ai : Int)) : Int) : ℚ) * wTile
  let suitScore := suitScoreQ ai human left right
  let ghost := ghostQ ai human
  let doublePen := doublePenQ ai human
  let total := popcount ai + popcount human
  pipScore * phasePip total matchDiff + mobScore * phaseMob total matchDiff
    + tileScore + suitScore * phaseSuit total matchDiff + ghost
    + doublePen * phaseDbl total

/-- Truncation of the evaluator result to `i32`, as the search composes
it with integer terminal scores (`evaluate_bb(...) as i32`). -/
def truncQ (q : ℚ) : Int := Int.tdiv q.num q.den

/-! Claim C7: swap antisymmetry of the evaluator. -/

/-- Lock-in bonuses inside `suit_score`: they inspect only the human
hand, so they are the asymmetric part of the evaluator. -/
def lockTermQ (human : Nat) (left right : Int) : ℚ :=
  if left ≠ 7 then
    if left = right then
      (if popcount (suitMaskI left &&& human) = 0 then wLockin * 2 + wLockinBoth else 0)
    else
      (if popcount (suitMaskI left &&& human) = 0 then wLockin else 0)
        + (if popcount (suitMaskI right &&& human) = 0 then wLockin else 0)
        + (if popcount (suitMaskI left &&& human) = 0 ∧ popcount (suitMaskI right &&& human) = 0
            then wLockinBoth else 0)
  else 0

/-- Hand-difference part of `suit_score`, exactly negated by a swap. -/
def suitBaseQ (ai human : Nat) (left right : Int) : ℚ :=
  if left ≠ 7 then
    if left = right then
      ((popcount (suitMaskI left &&& ai) : ℚ) - (popcount (suitMaskI left &&& human) : ℚ))
        * wSuit * 2
    else
      ((popcount (suitMaskI left &&& ai) : ℚ) + (popcount (suitMaskI right &&& ai) : ℚ)
        - (popcount (suitMaskI left &&& human) : ℚ)
        - (popcount (suitMaskI right &&& human) : ℚ)) * wSuit
  else 0

lemma suitScoreQ_decomp (ai human : Nat) (left right : Int) :
    suitScoreQ ai human left right = suitBaseQ ai human left right + lockTermQ human left right := by
  unfold suitScoreQ suitBaseQ lockTermQ
  split_ifs <;> ring

lemma suitBaseQ_swap (h1 h2 : Nat) (left right : Int) :
    suitBaseQ h2 h1 left right = - suitBaseQ h1 h2 left right := by
  unfold suitBaseQ
  split_ifs <;> ring

lemma ghostQ_swap (h1 h2 : Nat) : ghostQ h2 h1 = - ghostQ h1 h2 := by
  unfold ghostQ
  rw [Nat.lor_comm]
  split_ifs <;> ring

lemma doublePenQ_swap (h1 h2 : Nat) : doublePenQ h2 h1 = - doublePenQ h1 h2 := by
  unfold doublePenQ
  ring

lemma matchMulPip_neg (d : Int) (hd1 : -50 < d) (hd2 : d < 50) :
    matchMulPip (-d) = matchMulPip d := by
  unfold matchMulPip
  rw [if_neg (by omega), if_neg (by omega), if_neg (by omega), if_neg (by omega)]

lemma matchMulMob_neg (d : Int) (hd1 : -50 < d) (hd2 : d < 50) :
    matchMulMob (-d) = matchMulMob d := by
  unfold matchMulMob
  rw [if_neg (by omega), if_neg (by omega), if_neg (by omega), if_neg (by omega)]

lemma matchMulSuit_neg (d : Int) (hd1 : -50 < d) (hd2 : d < 50) :
    matchMulSuit (-d) = matchMulSuit d := by
  unfold matchMulSuit
  rw [if_neg (by omega), if_neg (by omega), if_neg (by omega), if_neg (by omega)]

/-- C7 (amended): swapping the hands and negating `match_diff` exactly
negates every evaluator component — including ghost and the double
penalty — except the lock-in bonuses inside `suit_score`, which read
only the human hand; moreover the phase multipliers agree only while
`-50 < match_diff < 50`.  Under that proviso the two evaluations sum to
exactly the phase-weighted lock-in bonuses of the two hands. -/
theorem evaluateBB_swap_identity (h1 h2 : Nat) (l r : Int) (d : Int)
    (hd1 : -50 < d) (hd2 : d < 50) :
    evaluateBB h1 h2 l r d + evaluateBB h2 h1 l r (-d)
      = phaseSuit (popcount h1 + popcount h2) d
          * (lockTermQ h2 l r + lockTermQ h1 l r) := by
  have hlor : h2 ||| h1 = h1 ||| h2 := Nat.lor_comm _ _
  have htot : popcount h2 + popcount h1 = popcount h1 + popcount h2 := Nat.add_comm _ _
  simp only [evaluateBB, hlor, htot, phasePip, phaseMob, phaseSuit,
    matchMulPip_neg d hd1 hd2, matchMulMob_neg d hd1 hd2, matchMulSuit_neg d hd1 hd2]
  rw [suitScoreQ_decomp h1 h2, suitScoreQ_decomp h2 h1, suitBaseQ_swap,
    ghostQ_swap h1 h2, doublePenQ_swap h1 h2]
  push_cast
  ring

/-- C7 counterexample: with AI holding (0,1), human holding (2,3), ends
0 and 1 and `match_diff = 0`, the human lacks both end suits, so the
lock-in bonuses break the claimed antisymmetry even after removing the
ghost and double-penalty terms from both sides. -/
theorem evaluateBB_swap_cex :
    ¬ (evaluateBB (1 <<< 1) (1 <<< 14) 0 1 0
          - ghostQ (1 <<< 1) (1 <<< 14)
          - doublePenQ (1 <<< 1) (1 <<< 14) * phaseDbl 2
        = -(evaluateBB (1 <<< 14) (1 <<< 1) 0 1 (-0)
          - ghostQ (1 <<< 14) (1 <<< 1)
          - doublePenQ (1 <<< 14) (1 <<< 1) * phaseDbl 2)) := by
  have t1 : totalPipsEval (1 <<< 14) ((1 <<< 1) ||| (1 <<< 14)) = 5 := by decide
  have t2 : totalPipsEval (1 <<< 1) ((1 <<< 1) ||| (1 <<< 14)) = 1 := by decide
  have t3 : totalPipsEval (1 <<< 14) ((1 <<< 14) ||| (1 <<< 1)) = 5 := by decide
  have t4 : totalPipsEval (1 <<< 1) ((1 <<< 14) ||| (1 <<< 1)) = 1 := by decide
  have m1 : countMovesBB (1 <<< 1) 0 1 = 1 := by decide
  have m2 : countMovesBB (1 <<< 14) 0 1 = 0 := by decide
  have pc1 : popcount (1 <<< 1) = 1 := by decide
  have pc2 : popcount (1 <<< 14) = 1 := by decide
  have q1 : popcount (suitMaskI 0 &&& (1 <<< 1)) = 1 := by decide
  have q2 : popcount (suitMaskI 1 &&& (1 <<< 1)) = 1 := by decide
  have q3 : popcount (suitMaskI 0 &&& (1 <<< 14)) = 0 := by decide
  have q4 : popcount (suitMaskI 1 &&& (1 <<< 14)) = 0 := by decide
  have s1 : suitScoreQ (1 <<< 1) (1 <<< 14) 0 1 = 37 := by
    norm_num [suitScoreQ, q1, q2, q3, q4, wSuit, wLockin, wLockinBoth]
  have s2 : suitScoreQ (1 <<< 14) (1 <<< 1) 0 1 = -6 := by
    norm_num [suitScoreQ, q1, q2, q3, q4, wSuit, wLockin, wLockinBoth]
  have g1 : ghostQ (1 <<< 1) (1 <<< 14) = 0 := by
    rw [ghostQ, if_neg (by decide)]
  have g2 : ghostQ (1 <<< 14) (1 <<< 1) = 0 := by
    rw [ghostQ, if_neg (by decide)]
  have b1 : bitIndices (16384 &&& doubleMask) = [] := by decide
  have b2 : bitIndices (2 &&& doubleMask) = [] := by decide
  have d1 : doublePenQ (1 <<< 1) (1 <<< 14) = 0 := by
    simp [doublePenQ, doubleSumQ, b1, b2]
  have d2 : doublePenQ (1 <<< 14) (1 <<< 1) = 0 := by
    simp [doublePenQ, doubleSumQ, b1, b2]
  have e1 : evaluateBB (1 <<< 1) (1 <<< 14) 0 1 0 = 699 / 10 := by
    simp only [evaluateBB, t1, t2, m1, m2, pc1, pc2, s1, g1, d1]
    norm_num [phasePip, phaseMob, phaseSuit, phaseDbl, phaseBase,
      matchMulPip, matchMulMob, matchMulSuit, wPip, wMobility, wTile]
  have e2 : evaluateBB (1 <<< 14) (1 <<< 1) 0 1 (-0) = -117 / 5 := by
    simp only [evaluateBB, t3, t4, m1, m2, pc1, pc2, s2, g2, d2]
    norm_num [phasePip, phaseMob, phaseSuit, phaseDbl, phaseBase,
      matchMulPip, matchMulMob, matchMulSuit, wPip, wMobility, wTile]
  rw [e1, e2, g1, g2, d1, d2]
  norm_num

/-- C7 witness: a concrete instance of the amended identity. -/
theorem evaluateBB_swap_identity_witness :
    ((-50 : Int) < 0 ∧ (0 : Int) < 50) ∧
    evaluateBB (1 <<< 1) (1 <<< 14) 0 1 0 + evaluateBB (1 <<< 14) (1 <<< 1) 0 1 (-0)
      = phaseSuit (popcount (1 <<< 1) + popcount (1 <<< 14)) 0
          * (lockTermQ (1 <<< 14) 0 1 + lockTermQ (1 <<< 1) 0 1) :=
  ⟨⟨by decide, by decide⟩,
    evaluateBB_swap_identity (1 <<< 1) (1 <<< 14) 0 1 0 (by decide) (by decide)⟩

/-! Search kernel (`search.rs`).  The persistent engine state — the
transposition table with its generation, the killer and history tables
of `ordering.rs`, the node counter and the TT diagnostic counters — is
threaded as an `Env` record; the board position is the `Pos` record
defined above.  Recursion is fuelled. -/

def nodeLimit : Nat := 20000000

structure Env where
  tt : TTState
  ttGen : Nat
  killerTile : Nat → Int
  killerEnd : Nat → Int
  history : Nat → Nat → Int
  nodeCount : Nat
  ttProbes : Nat
  ttHits : Nat
  ttCutoffs : Nat
  ttHints : Nat

/-- Fresh process state: zeroed TT, killer slots `-1`/`-2`, zero
history and counters (the initial values of the Rust statics). -/
def initialEnv : Env :=
  { tt := fun _ => ttEmptyEntry, ttGen := 0,
    killerTile := fun _ => -1, killerEnd := fun _ => -2,
    history := fun _ _ => 0,
    nodeCount := 0, ttProbes := 0, ttHits := 0, ttCutoffs := 0, ttHints := 0 }

/-- Record a killer move (`record_killer` in `ordering.rs`): two slots
per depth, shifting slot 0 into slot 1 unless the move repeats. -/
def recordKiller (depth : Int) (t e : Nat) (env : Env) : Env :=
  if 0 ≤ depth ∧ depth < 64 then
    let kd := depth.toNat * 2
    if env.killerTile kd = (t : Int) ∧ env.killerEnd kd = (e : Int) then env
    else
      { env with
        killerTile := fun j =>
          if j = kd + 1 then env.killerTile kd
          else if j = kd then (t : Int) else env.killerTile j,
        killerEnd := fun j =>
          if j = kd + 1 then env.killerEnd kd
          else if j = kd then (e : Int) else env.killerEnd j }
  else env

/-- Record a history bonus (`record_history`): add `depth²`, clamp at
10000. -/
def recordHistory (t e : Nat) (depth : Int) (env : Env) : Env :=
  let hv := env.history t (e + 1) + depth * depth
  { env with
    history := fun a b =>
      if a = t ∧ b = e + 1 then (if 10000 < hv then 10000 else hv) else env.history a b }

/-- Ordering score of one candidate move (`order_moves_at_ply`):
domino-in-one, killer, history, double and pip bonuses, force-pass and
ghost-activation bonuses. -/
def moveOrderScore (isAI : Bool) (depth : Int) (aiHand humanHand : Nat)
    (left right : Int) (env : Env) (mv : Move) : ℚ :=
  let myHand := if isAI then aiHand else humanHand
  let oppHand := if isAI then humanHand else aiHand
  let t := mv.1
  let e := mv.2
  let s1 : ℚ := if popcount myHand = 1 then 1000 else 0
  let s2 : ℚ :=
    if 0 ≤ depth ∧ depth < 64 then
      let kd := depth.toNat * 2
      if env.killerTile kd = (t : Int) ∧ env.killerEnd kd = (e : Int) then 5000
      else if env.killerTile (kd + 1) = (t : Int) ∧ env.killerEnd (kd + 1) = (e : Int) then 4500
      else 0
    else 0
  let s3 : ℚ := (env.history t (e + 1) : ℚ)
  let s4 : ℚ := if tileIsDouble t then 12 else 0
  let s5 : ℚ := (tilePips t : ℚ) * (3 / 2)
  let ends := computeNewEnds t e left right
  let s6 : ℚ := if countMovesBB oppHand ends.1 ends.2 = 0 then 25 else 0
  let s7 : ℚ :=
    if isAI ∧ oppHand &&& tile00Bit ≠ 0 ∧
        ((myHand ^^^ (1 <<< t)) ||| oppHand) &&& zeroSuitNo00 = 0
    then 15 else 0
  s1 + s2 + s3 + s4 + s5 + s6 + s7

/-- Stable descending insertion, as the in-place insertion sort of
`order_moves_at_ply` shifts entries while the predecessor scores
strictly less. -/
def insertMoveDesc (x : Move × ℚ) : List (Move × ℚ) → List (Move × ℚ)
  | [] => [x]
  | y :: ys => if y.2 < x.2 then x :: y :: ys else y :: insertMoveDesc x ys

/-- Score and sort the candidate moves (`order_moves_at_ply`). -/
def orderMoves (isAI : Bool) (depth : Int) (aiHand humanHand : Nat)
    (left right : Int) (env : Env) (moves : List Move) : List Move :=
  if moves.length ≤ 1 then moves
  else
    ((moves.map (fun m => (m, moveOrderScore isAI depth aiHand humanHand left right env m))).foldl
      (fun acc x => insertMoveDesc x acc) []).map (fun p => p.1)

/-- Swap the first later occurrence of the hinted move to the front
(the TT-hint swap loops in `minimax_bb` and at the root). -/
def hintSwap (bIdx bEnd : Int) (moves : List Move) : List Move :=
  match moves with
  | [] => []
  | x :: xs =>
    match xs.findIdx? (fun m => ((m.1 : Int) == bIdx) && ((m.2 : Int) == bEnd)) with
    | some i => (xs.getD i x) :: xs.set i x
    | none => x :: xs

/-- Apply the hint swap only when a hint exists (`tt_best_tile >= 0`). -/
def hintApply (bIdx bEnd : Int) (moves : List Move) : List Move :=
  if 0 ≤ bIdx then hintSwap bIdx bEnd moves else moves

/-- Order the moves only when more than two exist (`num_moves > 2`). -/
def maybeOrder (isAI : Bool) (depth : Int) (pos : Pos) (env : Env)
    (moves : List Move) : List Move :=
  if 2 < moves.length then
    orderMoves isAI depth pos.aiHand pos.humanHand pos.left pos.right env moves
  else moves

/-- Output of a `minimax_bb` move loop. -/
structure LoopOut where
  best : Int
  bIdx : Int
  bEnd : Int
  pos : Pos
  env : Env

/-- Child value of an AI move: domino-win score when the AI hand
empties, block score when neither side can answer the new ends,
otherwise the recursive search (the child-call rules of the maximizing
loop in `minimax_bb`). -/
def childResultMax (recur : Bool → Int → Int → Int → Int → Pos → Env → Int × Pos × Env)
    (depth alpha beta ext : Int) (pos1 : Pos) (env : Env) : Int × Pos × Env :=
  if pos1.aiHand = 0 then
    (scoreDominoBB true pos1.humanHand, pos1, env)
  else if countMovesBB pos1.humanHand pos1.left pos1.right = 0 ∧
      countMovesBB pos1.aiHand pos1.left pos1.right = 0 then
    (scoreBlockBB pos1.aiHand pos1.humanHand pos1.p1Who pos1.p1L pos1.p1R pos1.p1Tile
      pos1.p2Who pos1.p2L pos1.p2R, pos1, env)
  else
    recur false (depth - 1) alpha beta ext pos1 env

/-- Child value of a human move (the minimizing loop's child rules). -/
def childResultMin (recur : Bool → Int → Int → Int → Int → Pos → Env → Int × Pos × Env)
    (depth alpha beta ext : Int) (pos1 : Pos) (env : Env) : Int × Pos × Env :=
  if pos1.humanHand = 0 then
    (scoreDominoBB false pos1.aiHand, pos1, env)
  else if countMovesBB pos1.aiHand pos1.left pos1.right = 0 ∧
      countMovesBB pos1.humanHand pos1.left pos1.right = 0 then
    (scoreBlockBB pos1.aiHand pos1.humanHand pos1.p1Who pos1.p1L pos1.p1R pos1.p1Tile
      pos1.p2Who pos1.p2L pos1.p2R, pos1, env)
  else
    recur true (depth - 1) alpha beta ext pos1 env

/-- The maximizing move loop of `minimax_bb` (`is_ai = true`): make,
terminal check or recursion, unmake, best/alpha update, beta cutoff
with killer+history recording.  `recur` is the recursive search at the
remaining fuel. -/
def maxLoopBB (recur : Bool → Int → Int → Int → Int → Pos → Env → Int × Pos × Env)
    (depth ext beta : Int) (saved : Pos) :
    List Move → Int → Int → Int → Int → Pos → Env → LoopOut
  | [], best, bIdx, bEnd, _, pos, env => ⟨best, bIdx, bEnd, pos, env⟩
  | (t, e) :: rest, best, bIdx, bEnd, alpha, pos, env =>
    let pos1 := makeMovePos true t e saved pos
    let r := childResultMax recur depth alpha beta ext pos1 env
    let pos3 := unmakeMovePos true t saved r.2.1
    let best' := if best < r.1 then r.1 else best
    let bIdx' := if best < r.1 then (t : Int) else bIdx
    let bEnd' := if best < r.1 then (e : Int) else bEnd
    let alpha' := if alpha < best' then best' else alpha
    if beta ≤ alpha' then
      ⟨best', bIdx', bEnd', pos3, recordHistory t e depth (recordKiller depth t e r.2.2)⟩
    else
      maxLoopBB recur depth ext beta saved rest best' bIdx' bEnd' alpha' pos3 r.2.2

/-- The minimizing move loop of `minimax_bb` (`is_ai = false`). -/
def minLoopBB (recur : Bool → Int → Int → Int → Int → Pos → Env → Int × Pos × Env)
    (depth ext alpha : Int) (saved : Pos) :
    List Move → Int → Int → Int → Int → Pos → Env → LoopOut
  | [], best, bIdx, bEnd, _, pos, env => ⟨best, bIdx, bEnd, pos, env⟩
  | (t, e) :: rest, best, bIdx, bEnd, beta, pos, env =>
    let pos1 := makeMovePos false t e saved pos
    let r := childResultMin recur depth alpha beta ext pos1 env
    let pos3 := unmakeMovePos false t saved r.2.1
    let best' := if r.1 < best then r.1 else best
    let bIdx' := if r.1 < best then (t : Int) else bIdx
    let bEnd' := if r.1 < best then (e : Int) else bEnd
    let beta' := if best' < beta then best' else beta
    if beta' ≤ alpha then
      ⟨best', bIdx', bEnd', pos3, recordHistory t e depth (recordKiller depth t e r.2.2)⟩
    else
      minLoopBB recur depth ext alpha saved rest best' bIdx' bEnd' beta' pos3 r.2.2

/-- The move-loop phase of `minimax_bb` with the final TT store:
`EXACT` when the best landed strictly inside the original window,
`LOWER` on fail-high, `UPPER` on fail-low. -/
def minimaxMovesBB (recur : Bool → Int → Int → Int → Int → Pos → Env → Int × Pos × Env)
    (isAI : Bool) (moves : List Move) (depth alpha beta ext : Int)
    (pos : Pos) (env : Env) : Int × Pos × Env :=
  if isAI then
    let o := maxLoopBB recur depth ext beta pos moves (-100000) (-1) (-1) alpha pos env
    let flag := if o.best ≤ alpha then ttFlagUpper
      else if beta ≤ o.best then ttFlagLower else ttFlagExact
    (o.best, o.pos,
      { o.env with tt := ttStore o.env.tt o.env.ttGen o.pos.hash depth flag o.best o.bIdx o.bEnd })
  else
    let o := minLoopBB recur depth ext alpha pos moves 100000 (-1) (-1) beta pos env
    let flag := if o.best ≤ alpha then ttFlagUpper
      else if beta ≤ o.best then ttFlagLower else ttFlagExact
    (o.best, o.pos,
      { o.env with tt := ttStore o.env.tt o.env.ttGen o.pos.hash depth flag o.best o.bIdx o.bEnd })

/-- TT probe, diagnostic counters, TT cutoff, move ordering and hint
swap, then the move loops — the interior of `minimax_bb` after the
quiescence gate. -/
def minimaxCoreAux (recur : Bool → Int → Int → Int → Int → Pos → Env → Int × Pos × Env)
    (isAI : Bool) (moves : List Move) (depth alpha beta ext : Int)
    (pos : Pos) (env : Env) : Int × Pos × Env :=
  let env1 := { env with ttProbes := env.ttProbes + 1 }
  match ttProbe env.tt pos.hash depth alpha beta with
  | some hit =>
    let env2 := { env1 with ttHits := env1.ttHits + 1 }
    match hit.score with
    | some sc => (sc, pos, { env2 with ttCutoffs := env2.ttCutoffs + 1 })
    | none =>
      let env3 := { env2 with ttHints := env2.ttHints + 1 }
      minimaxMovesBB recur isAI
        (hintApply hit.bestIdx hit.bestEnd (maybeOrder isAI depth pos env3 moves))
        depth alpha beta ext pos env3
  | none =>
    minimaxMovesBB recur isAI (maybeOrder isAI depth pos env1 moves)
      depth alpha beta ext pos env1

/-- Interior search (`minimax_bb`): node counter and soft cap, move
generation, pass handling with block scoring, the quiescence gate at
non-positive depth, then the TT/ordering/loop core. -/
def minimaxBB : Nat → Bool → Int → Int → Int → Int → Pos → Env → Int × Pos × Env
  | 0, _, _, _, _, _, pos, env => (0, pos, env)
  | Nat.succ fuel, isAI, depth, alpha, beta, ext, pos, env =>
    let env1 := { env with nodeCount := env.nodeCount + 1 }
    if nodeLimit ≤ env1.nodeCount then
      (truncQ (evaluateBB pos.aiHand pos.humanHand pos.left pos.right pos.matchDiff), pos, env1)
    else
      let myHand := if isAI then pos.aiHand else pos.humanHand
      let moves := generateMoves myHand pos.left pos.right
      if moves.length = 0 then
        if 2 ≤ pos.consPass + 1 then
          (scoreBlockBB pos.aiHand pos.humanHand pos.p1Who pos.p1L pos.p1R pos.p1Tile
            pos.p2Who pos.p2L pos.p2R, pos, env1)
        else
          let r := minimaxBB fuel (!isAI) depth alpha beta ext (passStepPos pos) env1
          (r.1, { r.2.1 with hash := pos.hash, consPass := pos.consPass }, r.2.2)
      else
        if depth ≤ 0 then
          if ext < 6 + max 0 (12 - ((popcount pos.aiHand + popcount pos.humanHand : Nat) : Int))
              ∧ (moves.length = 1 ∨ 0 < pos.consPass
                ∨ (popcount pos.aiHand + popcount pos.humanHand ≤ 8
                    ∧ countMovesBB (if isAI then pos.humanHand else pos.aiHand)
                        pos.left pos.right ≤ 1)) then
            minimaxCoreAux (minimaxBB fuel) isAI moves 1 alpha beta (ext + 1) pos env1
          else
            (truncQ (evaluateBB pos.aiHand pos.humanHand pos.left pos.right pos.matchDiff),
              pos, env1)
        else
          minimaxCoreAux (minimaxBB fuel) isAI moves depth alpha beta ext pos env1

/-! Claim C9: the make/unmake discipline restores every position field
on every exit path of `minimax_bb`. -/

lemma unmake_make (isAI : Bool) (t e : Nat) (saved : Pos) :
    unmakeMovePos isAI t saved (makeMovePos isAI t e saved saved) = saved := by
  cases isAI
  · ext <;> simp [unmakeMovePos, makeMovePos, Nat.xor_assoc, Nat.xor_self, Nat.xor_zero]
  · ext <;> simp [unmakeMovePos, makeMovePos, Nat.xor_assoc, Nat.xor_self, Nat.xor_zero]

lemma childResultMax_pos (recur : Bool → Int → Int → Int → Int → Pos → Env → Int × Pos × Env)
    (hrec : ∀ s d a b x p e, (recur s d a b x p e).2.1 = p)
    (depth alpha beta ext : Int) (pos1 : Pos) (env : Env) :
    (childResultMax recur depth alpha beta ext pos1 env).2.1 = pos1 := by
  unfold childResultMax
  split_ifs
  · rfl
  · rfl
  · exact hrec false (depth - 1) alpha beta ext pos1 env

lemma childResultMin_pos (recur : Bool → Int → Int → Int → Int → Pos → Env → Int × Pos × Env)
    (hrec : ∀ s d a b x p e, (recur s d a b x p e).2.1 = p)
    (depth alpha beta ext : Int) (pos1 : Pos) (env : Env) :
    (childResultMin recur depth alpha beta ext pos1 env).2.1 = pos1 := by
  unfold childResultMin
  split_ifs
  · rfl
  · rfl
  · exact hrec true (depth - 1) alpha beta ext pos1 env

lemma maxLoopBB_pos (recur : Bool → Int → Int → Int → Int → Pos → Env → Int × Pos × Env)
    (hrec : ∀ s d a b x p e, (recur s d a b x p e).2.1 = p)
    (depth ext beta : Int) (saved : Pos) :
    ∀ (moves : List Move) (best bIdx bEnd alpha : Int) (env : Env),
      (maxLoopBB recur depth ext beta saved moves best bIdx bEnd alpha saved env).pos = saved := by
  intro moves
  induction moves with
  | nil => intros; rfl
  | cons mv rest ih =>
    intro best bIdx bEnd alpha env
    obtain ⟨t, e⟩ := mv
    have hpos3 :
        unmakeMovePos true t saved
          (childResultMax recur depth alpha beta ext (makeMovePos true t e saved saved) env).2.1
          = saved := by
      rw [childResultMax_pos recur hrec]
      exact unmake_make true t e saved
    simp only [maxLoopBB]
    split_ifs <;> first
      | exact hpos3
      | (rw [hpos3]; exact ih _ _ _ _ _)

lemma minLoopBB_pos (recur : Bool → Int → Int → Int → Int → Pos → Env → Int × Pos × Env)
    (hrec : ∀ s d a b x p e, (recur s d a b x p e).2.1 = p)
    (depth ext alpha : Int) (saved : Pos) :
    ∀ (moves : List Move) (best bIdx bEnd beta : Int) (env : Env),
      (minLoopBB recur depth ext alpha saved moves best bIdx bEnd beta saved env).pos = saved := by
  intro moves
  induction moves with
  | nil => intros; rfl
  | cons mv rest ih =>
    intro best bIdx bEnd beta env
    obtain ⟨t, e⟩ := mv
    have hpos3 :
        unmakeMovePos false t saved
          (childResultMin recur depth alpha beta ext (makeMovePos false t e saved saved) env).2.1
          = saved := by
      rw [childResultMin_pos recur hrec]
      exact unmake_make false t e saved
    simp only [minLoopBB]
    split_ifs <;> first
      | exact hpos3
      | (rw [hpos3]; exact ih _ _ _ _ _)

lemma minimaxMovesBB_pos (recur : Bool → Int → Int → Int → Int → Pos → Env → Int × Pos × Env)
    (hrec : ∀ s d a b x p e, (recur s d a b x p e).2.1 = p)
    (isAI : Bool) (moves : List Move) (depth alpha beta ext : Int)
    (pos : Pos) (env : Env) :
    (minimaxMovesBB recur isAI moves depth alpha beta ext pos env).2.1 = pos := by
  unfold minimaxMovesBB
  cases isAI
  · simp only [if_neg (by simp : ¬ (false = true))]
    exact minLoopBB_pos recur hrec depth ext alpha pos moves _ _ _ _ env
  · simp only [if_pos rfl]
    exact maxLoopBB_pos recur hrec depth ext beta pos moves _ _ _ _ env

lemma minimaxCoreAux_pos (recur : Bool → Int → Int → Int → Int → Pos → Env → Int × Pos × Env)
    (hrec : ∀ s d a b x p e, (recur s d a b x p e).2.1 = p)
    (isAI : Bool) (moves : List Move) (depth alpha beta ext : Int)
    (pos : Pos) (env : Env) :
    (minimaxCoreAux recur isAI moves depth alpha beta ext pos env).2.1 = pos := by
  unfold minimaxCoreAux
  cases hp : ttProbe env.tt pos.hash depth alpha beta with
  | none =>
    dsimp only
    exact minimaxMovesBB_pos recur hrec isAI _ depth alpha beta ext pos _
  | some hit =>
    dsimp only
    cases hs : hit.score with
    | none =>
      dsimp only
      exact minimaxMovesBB_pos recur hrec isAI _ depth alpha beta ext pos _
    | some sc => rfl

/-- C9: every call of `minimax_bb` — through the node-cap return, the
block and pass returns, the TT-cutoff return, the static-evaluation
return, and the move loops including beta-cutoff breaks — leaves the
position fields `G_AI_HAND`, `G_HUMAN_HAND`, `G_LEFT`, `G_RIGHT`,
`G_HASH`, `G_CONS_PASS`, `G_PLY` and the puppeteer fields `P1`/`P2`
exactly as they were on entry. -/
theorem minimaxBB_frame (fuel : Nat) :
    ∀ (isAI : Bool) (depth alpha beta ext : Int) (pos : Pos) (env : Env),
      (minimaxBB fuel isAI depth alpha beta ext pos env).2.1 = pos := by
  induction fuel with
  | zero => intros; rfl
  | succ fuel ih =>
    intro isAI depth alpha beta ext pos env
    simp only [minimaxBB]
    split_ifs <;> first
      | rfl
      | (rw [ih]; ext <;> simp [passStepPos])
      | exact minimaxCoreAux_pos (minimaxBB fuel)
          (fun s d a b x p e => ih s d a b x p e) _ _ _ _ _ _ pos _

/-! Claim C8: the quiescence gate of `minimax_bb`. -/

/-- C8: at an interior node with non-positive depth and at least one
legal move (and the node cap not hit), `minimax_bb` extends the search
to depth 1 with `ext+1` exactly when `ext < 6 + max 0 (12 −
total_remaining)` and the side to move has exactly one legal move, or
the pass counter is positive, or at most 8 tiles remain and the
opponent has at most one reply; otherwise it returns the truncated
static evaluation of the current position. -/
theorem minimaxBB_quiescence_gate (fuel : Nat) (isAI : Bool) (depth alpha beta ext : Int)
    (pos : Pos) (env : Env)
    (hcap : env.nodeCount + 1 < nodeLimit)
    (hmoves : (generateMoves (if isAI then pos.aiHand else pos.humanHand)
        pos.left pos.right).length ≠ 0)
    (hdepth : depth ≤ 0) :
    minimaxBB (fuel + 1) isAI depth alpha beta ext pos env =
      if ext < 6 + max 0 (12 - ((popcount pos.aiHand + popcount pos.humanHand : Nat) : Int))
          ∧ ((generateMoves (if isAI then pos.aiHand else pos.humanHand)
                pos.left pos.right).length = 1
            ∨ 0 < pos.consPass
            ∨ (popcount pos.aiHand + popcount pos.humanHand ≤ 8
                ∧ countMovesBB (if isAI then pos.humanHand else pos.aiHand)
                    pos.left pos.right ≤ 1))
      then
        minimaxCoreAux (minimaxBB fuel) isAI
          (generateMoves (if isAI then pos.aiHand else pos.humanHand) pos.left pos.right)
          1 alpha beta (ext + 1) pos { env with nodeCount := env.nodeCount + 1 }
      else
        (truncQ (evaluateBB pos.aiHand pos.humanHand pos.left pos.right pos.matchDiff), pos,
          { env with nodeCount := env.nodeCount + 1 }) := by
  simp only [minimaxBB]
  rw [if_neg (show ¬ nodeLimit ≤ env.nodeCount + 1 by omega), if_neg hmoves, if_pos hdepth]

/-- C8 witness: AI to move holding only (0,1) against ends 0 and 3 at
depth 0 — a single legal move, so the gate extends. -/
theorem minimaxBB_quiescence_gate_witness :
    ((initialEnv.nodeCount + 1 < nodeLimit) ∧
      ((generateMoves
          (if true then (rootPos ⟨1 <<< 1, 1 <<< 27, 0, 3, 0, 0, -1, 0, 0, -1, -1, 0, 0⟩).aiHand
            else (rootPos ⟨1 <<< 1, 1 <<< 27, 0, 3, 0, 0, -1, 0, 0, -1, -1, 0, 0⟩).humanHand)
          (rootPos ⟨1 <<< 1, 1 <<< 27, 0, 3, 0, 0, -1, 0, 0, -1, -1, 0, 0⟩).left
          (rootPos ⟨1 <<< 1, 1 <<< 27, 0, 3, 0, 0, -1, 0, 0, -1, -1, 0, 0⟩).right).length ≠ 0) ∧
      ((0 : Int) ≤ 0)) ∧
    minimaxBB (5 + 1) true 0 (-100000) 100000 0
        (rootPos ⟨1 <<< 1, 1 <<< 27, 0, 3, 0, 0, -1, 0, 0, -1, -1, 0, 0⟩) initialEnv =
      if (0 : Int) < 6 + max (0 : Int) (12 -
            ((popcount (rootPos ⟨1 <<< 1, 1 <<< 27, 0, 3, 0, 0, -1, 0, 0, -1, -1, 0, 0⟩).aiHand
              + popcount (rootPos ⟨1 <<< 1, 1 <<< 27, 0, 3, 0, 0, -1, 0, 0, -1, -1, 0, 0⟩).humanHand : Nat) : Int))
          ∧ ((generateMoves
                (if true then (rootPos ⟨1 <<< 1, 1 <<< 27, 0, 3, 0, 0, -1, 0, 0, -1, -1, 0, 0⟩).aiHand
                  else (rootPos ⟨1 <<< 1, 1 <<< 27, 0, 3, 0, 0, -1, 0, 0, -1, -1, 0, 0⟩).humanHand)
                (rootPos ⟨1 <<< 1, 1 <<< 27, 0, 3, 0, 0, -1, 0, 0, -1, -1, 0, 0⟩).left
                (rootPos ⟨1 <<< 1, 1 <<< 27, 0, 3, 0, 0, -1, 0, 0, -1, -1, 0, 0⟩).right).length = 1
            ∨ 0 < (rootPos ⟨1 <<< 1, 1 <<< 27, 0, 3, 0, 0, -1, 0, 0, -1, -1, 0, 0⟩).consPass
            ∨ (popcount (rootPos ⟨1 <<< 1, 1 <<< 27, 0, 3, 0, 0, -1, 0, 0, -1, -1, 0, 0⟩).aiHand
                + popcount (rootPos ⟨1 <<< 1, 1 <<< 27, 0, 3, 0, 0, -1, 0, 0, -1, -1, 0, 0⟩).humanHand ≤ 8
                ∧ countMovesBB
                    (if true then (rootPos ⟨1 <<< 1, 1 <<< 27, 0, 3, 0, 0, -1, 0, 0, -1, -1, 0, 0⟩).humanHand
                      else (rootPos ⟨1 <<< 1, 1 <<< 27, 0, 3, 0, 0, -1, 0, 0, -1, -1, 0, 0⟩).aiHand)
                    (rootPos ⟨1 <<< 1, 1 <<< 27, 0, 3, 0, 0, -1, 0, 0, -1, -1, 0, 0⟩).left
                    (rootPos ⟨1 <<< 1, 1 <<< 27, 0, 3, 0, 0, -1, 0, 0, -1, -1, 0, 0⟩).right ≤ 1))
      then
        minimaxCoreAux (minimaxBB 5) true
          (generateMoves
            (if true then (rootPos ⟨1 <<< 1, 1 <<< 27, 0, 3, 0, 0, -1, 0, 0, -1, -1, 0, 0⟩).aiHand
              else (rootPos ⟨1 <<< 1, 1 <<< 27, 0, 3, 0, 0, -1, 0, 0, -1, -1, 0, 0⟩).humanHand)
            (rootPos ⟨1 <<< 1, 1 <<< 27, 0, 3, 0, 0, -1, 0, 0, -1, -1, 0, 0⟩).left
            (rootPos ⟨1 <<< 1, 1 <<< 27, 0, 3, 0, 0, -1, 0, 0, -1, -1, 0, 0⟩).right)
          1 (-100000) 100000 (0 + 1)
          (rootPos ⟨1 <<< 1, 1 <<< 27, 0, 3, 0, 0, -1, 0, 0, -1, -1, 0, 0⟩)
          { initialEnv with nodeCount := initialEnv.nodeCount + 1 }
      else
        (truncQ (evaluateBB (rootPos ⟨1 <<< 1, 1 <<< 27, 0, 3, 0, 0, -1, 0, 0, -1, -1, 0, 0⟩).aiHand
            (rootPos ⟨1 <<< 1, 1 <<< 27, 0, 3, 0, 0, -1, 0, 0, -1, -1, 0, 0⟩).humanHand
            (rootPos ⟨1 <<< 1, 1 <<< 27, 0, 3, 0, 0, -1, 0, 0, -1, -1, 0, 0⟩).left
            (rootPos ⟨1 <<< 1, 1 <<< 27, 0, 3, 0, 0, -1, 0, 0, -1, -1, 0, 0⟩).right
            (rootPos ⟨1 <<< 1, 1 <<< 27, 0, 3, 0, 0, -1, 0, 0, -1, -1, 0, 0⟩).matchDiff),
          rootPos ⟨1 <<< 1, 1 <<< 27, 0, 3, 0, 0, -1, 0, 0, -1, -1, 0, 0⟩,
          { initialEnv with nodeCount := initialEnv.nodeCount + 1 }) :=
  ⟨⟨by decide, by decide, by decide⟩,
    minimaxBB_quiescence_gate 5 true 0 (-100000) 100000 0
      (rootPos ⟨1 <<< 1, 1 <<< 27, 0, 3, 0, 0, -1, 0, 0, -1, -1, 0, 0⟩) initialEnv
      (by decide) (by decide) (by decide)⟩

/-! Root search of `choose_move`: iterative deepening with aspiration
windows and PVS over the root moves.  The wall clock is abstracted by a
stop oracle consulted where the code compares the elapsed time against
75% of the adaptive budget: the budget scaling only changes the
threshold of that comparison, never the searched values. -/

/-- Result record of `choose_move` (`SearchResult` in `search.rs`). -/
structure SearchResult where
  bestTileIdx : Int
  bestEnd : Int
  bestScore : Int
  depth : Int
  nodes : Nat
  analysis : List (Int × Int × Int)
  ttProbes : Nat
  ttHits : Nat
  ttCutoffs : Nat
  ttHints : Nat
deriving DecidableEq

/-- Fuel handed to `minimax_bb` from the root: the real recursion depth
is bounded by one frame per placement or pass, well under 64. -/
def searchFuel : Nat := 64

/-- Outcome of one aspiration round over the root moves. -/
structure RootOut where
  bestScore : Int
  bestTile : Int
  bestEnd : Int
  complete : Bool
  scores : List (Int × Int × Int)
  pos : Pos
  env : Env

/-- The root move loop (one aspiration round): make on the root
position, terminal scores or PVS search (full window for the first
move, null window and re-search for the rest), unmake, score list and
best tracking, node-cap abort. -/
def rootMovesLoop (fuel : Nat) (iterDepth betaW : Int) (rootAiHand rootHash : Nat) :
    List Move → Bool → Int → Int → Int → Int → List (Int × Int × Int) → Pos → Env → RootOut
  | [], _, _, best, bTile, bEnd, scores, pos, env =>
    ⟨best, bTile, bEnd, true, scores, pos, env⟩
  | (t, e) :: rest, isFirst, curAlpha, best, bTile, bEnd, scores, pos, env =>
    let ends := computeNewEnds t e pos.left pos.right
    let pos1 : Pos := { pos with
      aiHand := rootAiHand ^^^ (1 <<< t),
      left := ends.1, right := ends.2,
      hash := rootHash ^^^ zTileHash t 0 ^^^ zLeftI pos.left ^^^ zLeftI ends.1
        ^^^ zRightI pos.right ^^^ zRightI ends.2 ^^^ zSideHash,
      consPass := 0,
      p2Who := pos.p1Who, p2L := pos.p1L, p2R := pos.p1R,
      p1Who := 1, p1L := ends.1, p1R := ends.2, p1Tile := (t : Int),
      ply := 1 }
    let r :=
      if pos1.aiHand = 0 then
        (scoreDominoBB true pos1.humanHand, pos1, env)
      else if countMovesBB pos1.humanHand pos1.left pos1.right = 0 ∧
          countMovesBB pos1.aiHand pos1.left pos1.right = 0 then
        (scoreBlockBB pos1.aiHand pos1.humanHand pos1.p1Who pos1.p1L pos1.p1R pos1.p1Tile
          pos1.p2Who pos1.p2L pos1.p2R, pos1, env)
      else if isFirst then
        minimaxBB fuel false (iterDepth - 1) curAlpha betaW 0 pos1 env
      else
        let r1 := minimaxBB fuel false (iterDepth - 1) curAlpha (curAlpha + 1) 0 pos1 env
        if curAlpha < r1.1 ∧ r1.1 < betaW then
          minimaxBB fuel false (iterDepth - 1) curAlpha betaW 0 r1.2.1 r1.2.2
        else r1
    let pos3 : Pos := { r.2.1 with
      aiHand := rootAiHand,
      left := pos.left, right := pos.right,
      hash := rootHash,
      p1Who := pos.p1Who, p1L := pos.p1L, p1R := pos.p1R, p1Tile := pos.p1Tile,
      p2Who := pos.p2Who, p2L := pos.p2L, p2R := pos.p2R,
      ply := 0, consPass := 0 }
    let scores' := scores ++ [((t : Int), (e : Int), r.1)]
    let best' := if best < r.1 then r.1 else best
    let bTile' := if best < r.1 then (t : Int) else bTile
    let bEnd' := if best < r.1 then (e : Int) else bEnd
    let curAlpha' := if curAlpha < r.1 then r.1 else curAlpha
    if nodeLimit ≤ r.2.2.nodeCount then
      ⟨best', bTile', bEnd', false, scores', pos3, r.2.2⟩
    else
      rootMovesLoop fuel iterDepth betaW rootAiHand rootHash rest false curAlpha'
        best' bTile' bEnd' scores' pos3 r.2.2

/-- Aspiration rounds (at most three): re-run the root moves with the
low side widened on a fail-low and the high side on a fail-high. -/
def aspLoop (fuel : Nat) (iterDepth : Int) (moves : List Move) (rootAiHand rootHash : Nat) :
    Nat → Int → Int → Pos → Env → RootOut
  | 0, _, _, pos, env => ⟨-100000, -1, -1, true, [], pos, env⟩
  | Nat.succ k, alphaW, betaW, pos, env =>
    let o := rootMovesLoop fuel iterDepth betaW rootAiHand rootHash moves true alphaW
      (-100000) (-1) (-1) [] pos env
    if o.complete = true ∧ o.bestScore ≤ alphaW ∧ 0 < k then
      aspLoop fuel iterDepth moves rootAiHand rootHash k (-100000) betaW o.pos o.env
    else if o.complete = true ∧ betaW ≤ o.bestScore ∧ 0 < k then
      aspLoop fuel iterDepth moves rootAiHand rootHash k alphaW 100000 o.pos o.env
    else o

/-- Package the committed values and diagnostic counters. -/
def finishResult (bestTile bestEnd prevScore lastDepth : Int) (lastNodes : Nat)
    (committed : List (Int × Int × Int)) (env : Env) : SearchResult :=
  ⟨bestTile, bestEnd, prevScore, lastDepth, lastNodes, committed,
    env.ttProbes, env.ttHits, env.ttCutoffs, env.ttHints⟩

/-- One iteration of iterative deepening per fuel unit: reset the node
counter, generate and order the root moves, pull the TT hint to the
front, run the aspiration rounds, commit (fully on a complete
iteration; on an aborted one only a matching or clearly winning move),
store the root in the TT, then stop on a full solve or when the stop
oracle fires. -/
def idLoop (stop : Nat → Bool) (totalTiles : Nat) :
    Nat → Int → Pos → Env → Int → Int → Int → Int → Nat → List (Int × Int × Int) → SearchResult
  | 0, _, _, env, bestTile, bestEnd, prevScore, lastDepth, lastNodes, committed =>
    finishResult bestTile bestEnd prevScore lastDepth lastNodes committed env
  | Nat.succ fi, iterDepth, pos, env, bestTile, bestEnd, prevScore, lastDepth, lastNodes,
      committed =>
    let env0 := { env with nodeCount := 0 }
    let movesRaw := generateMoves pos.aiHand pos.left pos.right
    let moves1 :=
      if 2 < movesRaw.length then
        orderMoves true iterDepth pos.aiHand pos.humanHand pos.left pos.right env0 movesRaw
      else movesRaw
    let moves2 :=
      match ttProbe env0.tt pos.hash 0 (-100000) 100000 with
      | some hit => if 0 ≤ hit.bestIdx then hintSwap hit.bestIdx hit.bestEnd moves1 else moves1
      | none => moves1
    let aspWindow : Int := if 6 ≤ iterDepth then 15 else 30
    let aw : Int × Int :=
      if iterDepth ≤ 1 then (-100000, 100000)
      else (prevScore - aspWindow, prevScore + aspWindow)
    let o := aspLoop searchFuel iterDepth moves2 pos.aiHand pos.hash 3 aw.1 aw.2 pos env0
    let upd : Int × Int × Int × Int × Nat × List (Int × Int × Int) :=
      if 0 ≤ o.bestTile then
        if o.complete = true then
          (o.bestTile, o.bestEnd, o.bestScore, iterDepth, o.env.nodeCount, o.scores)
        else if o.bestTile = bestTile ∨ 500 < o.bestScore then
          (o.bestTile, o.bestEnd, prevScore, lastDepth, lastNodes, committed)
        else (bestTile, bestEnd, prevScore, lastDepth, lastNodes, committed)
      else (bestTile, bestEnd, prevScore, lastDepth, lastNodes, committed)
    let env2 :=
      if o.complete = true ∧ 0 ≤ o.bestTile then
        { o.env with
          tt := ttStore o.env.tt o.env.ttGen o.pos.hash iterDepth ttFlagExact
            o.bestScore o.bestTile o.bestEnd }
      else o.env
    if o.complete = true ∧ o.env.nodeCount < nodeLimit ∧ (totalTiles : Int) ≤ iterDepth then
      finishResult upd.1 upd.2.1 upd.2.2.1 upd.2.2.2.1 upd.2.2.2.2.1 upd.2.2.2.2.2 env2
    else if stop iterDepth.toNat then
      finishResult upd.1 upd.2.1 upd.2.2.1 upd.2.2.2.1 upd.2.2.2.2.1 upd.2.2.2.2.2 env2
    else
      idLoop stop totalTiles fi (iterDepth + 1) o.pos env2 upd.1 upd.2.1 upd.2.2.1
        upd.2.2.2.1 upd.2.2.2.2.1 upd.2.2.2.2.2

/-- Root entry point (`choose_move`): seed the position (with the
pass-counter term of the hash forced to zero), bump the TT generation,
clear killers and history, reset the diagnostic counters, and run up to
50 iterations of iterative deepening. -/
def chooseMove (a : ChooseArgs) (stop : Nat → Bool) (env0 : Env) : SearchResult :=
  let pos := rootPos a
  let totalTiles := popcount a.aiHand + popcount a.humanHand
  let env : Env := { env0 with
    ttGen := (env0.ttGen + 1) % 256,
    killerTile := fun _ => -1, killerEnd := fun _ => -2,
    history := fun _ _ => 0,
    ttProbes := 0, ttHits := 0, ttCutoffs := 0, ttHints := 0 }
  idLoop stop totalTiles 50 1 pos env (-1) (-1) 0 0 0 []

set_option maxRecDepth 1000000 in
/-- C3: from the fresh engine state, with the AI holding (0,1) (tile
index 1), the human holding (6,6), board ends 0 and 3, no history and
`match_diff = 0`, `choose_move` returns tile index 1 on the left end
(end 0) with score 12 — the domino win leaving the human 12 pips — and
search depth at least 1, for every behaviour of the wall clock (the
1000 ms budget only parameterises the stop oracle). -/
theorem chooseMove_scenario1 (stop : Nat → Bool) :
    (chooseMove ⟨1 <<< 1, 1 <<< 27, 0, 3, 0, 0, -1, 0, 0, -1, -1, 0, 0⟩ stop initialEnv).bestTileIdx
        = 1 ∧
      (chooseMove ⟨1 <<< 1, 1 <<< 27, 0, 3, 0, 0, -1, 0, 0, -1, -1, 0, 0⟩ stop initialEnv).bestEnd
        = 0 ∧
      (chooseMove ⟨1 <<< 1, 1 <<< 27, 0, 3, 0, 0, -1, 0, 0, -1, -1, 0, 0⟩ stop initialEnv).bestScore
        = 12 ∧
      1 ≤ (chooseMove ⟨1 <<< 1, 1 <<< 27, 0, 3, 0, 0, -1, 0, 0, -1, -1, 0, 0⟩ stop initialEnv).depth := by
  have key : chooseMove ⟨1 <<< 1, 1 <<< 27, 0, 3, 0, 0, -1, 0, 0, -1, -1, 0, 0⟩ stop initialEnv =
      if stop 1 = true then ⟨1, 0, 12, 1, 0, [(1, 0, 12)], 0, 0, 0, 0⟩
      else ⟨1, 0, 12, 2, 0, [(1, 0, 12)], 0, 0, 0, 0⟩ := rfl
  rw [key]
  cases h : stop 1 <;> decide

end Dominos
